import Mathlib

/-!
Verification of `generate_heatmap.py` (IMDB-heatmap).

A shallow embedding of the IMDB episode-rating heatmap generator.
Strings are modelled as `List Char`; Python `str.find` returns an `Int`
(`-1` when the needle is absent) and Python slices accept negative
indices, both modelled below.  Network fetches are external inputs: each
embedded function takes the parsed content of the pages it would fetch
as explicit parameters.  Ratings are modelled as exact rationals.
-/

namespace IMDBHeatmap

/-- Index of the first occurrence of `pat` inside `s`, if any
(the search underlying Python `str.find`). -/
def strFind (pat : List Char) : List Char → Option Nat
  | [] => if pat.isPrefixOf ([] : List Char) then some 0 else none
  | c :: t => if pat.isPrefixOf (c :: t) then some 0 else (strFind pat t).map (· + 1)

/-- Python `s.find(pat)`: first index of `pat` in `s`, or `-1` when absent. -/
def pyFind (s pat : List Char) : Int :=
  match strFind pat s with
  | some i => (i : Int)
  | none => -1

/-- Resolve a (possibly negative) Python slice endpoint against a string of
length `n`, clamping into `[0, n]`: a negative index counts from the end. -/
def pySliceIdx (n : Nat) (i : Int) : Nat :=
  if i < 0 then n - min ((-i).toNat) n else min i.toNat n

/-- Python slice `s[a:b]` (with possibly negative endpoints). -/
def pySlice (s : List Char) (a b : Int) : List Char :=
  (s.take (pySliceIdx s.length b)).drop (pySliceIdx s.length a)

/-- Python `s.replace(pat, rep)` for a non-empty `pat`: replace each
non-overlapping occurrence, scanning left to right.  (For the empty
pattern the embedding returns `s`; the program only replaces `" "`.) -/
def strReplace (pat rep : List Char) : List Char → List Char
  | [] => []
  | c :: rest =>
    if h : pat ≠ [] ∧ pat.isPrefixOf (c :: rest)
    then rep ++ strReplace pat rep ((c :: rest).drop pat.length)
    else c :: strReplace pat rep rest
  termination_by s => s.length
  decreasing_by
    · simp only [List.length_drop, List.length_cons]
      have : 1 ≤ pat.length := List.length_pos.mpr h.1
      omega
    · simp

/-- Numeric value of a digit string (most significant first). -/
def digitsToNat (l : List Char) : Nat :=
  l.foldl (fun a c => a * 10 + (c.toNat - 48)) 0

/-- Conversion of a decimal text token to an exact rational, modelling the
float conversion that `pd.DataFrame(..., dtype=np.float32)` applies to the
harvested rating strings: optional integer part, optional dot, optional
fractional part, at least one digit in total ("8.4", "8.", "9" all
convert; "", ".", "a.b" do not).  `none` models a conversion error. -/
def parseDecimal (t : List Char) : Option ℚ :=
  match strFind ['.'] t with
  | none =>
      if t.all (fun c => c.isDigit) && !t.isEmpty
      then some (digitsToNat t) else none
  | some i =>
      let ip := t.take i
      let fp := t.drop (i + 1)
      if ip.all (fun c => c.isDigit) && fp.all (fun c => c.isDigit)
          && (!ip.isEmpty || !fp.isEmpty)
      then some ((digitsToNat ip : ℚ) + (digitsToNat fp : ℚ) / (10 : ℚ) ^ fp.length)
      else none

/-- The failure modes of a run, named as in the design document: an
uncaught `IndexError` on an empty search-result list is the
`NotFoundError` of title resolution; a failed numeric conversion of a
harvested token is the `ParseError`. -/
inductive ScrapeError where
  | NotFoundError : ScrapeError
  | ParseError : ScrapeError
  deriving DecidableEq

/-- `search_imdb` line `title = title.replace(" ", "%20")` and the
f-string URL, with `release_date` appended by the three `if` statements
(`start_year` and `end_year` default to `0`, which Python treats as
falsy). -/
def build_search_url (title : List Char) (start_year end_year : Nat) : List Char :=
  let t := strReplace [' '] "%20".toList title
  let url := "https://www.imdb.com/search/title/?title=".toList ++ t
      ++ "&title_type=tv_series,tv_miniseries".toList
  let url := if start_year ≠ 0
      then url ++ "&release_date=".toList ++ (Nat.repr start_year).toList ++ "-01-01,".toList
      else url
  let url := if start_year = 0 ∧ end_year ≠ 0 then url ++ "&release_date=,".toList else url
  let url := if end_year ≠ 0
      then url ++ (Nat.repr end_year).toList ++ "-12-31".toList
      else url
  url

/-- Lines 41-43 of `search_imdb`: `start = href.find("tt")`,
`end = href.find("/?ref")`, `imdb_id = href[start:end]`. -/
def extract_id (href : List Char) : List Char :=
  pySlice href (pyFind href "tt".toList) (pyFind href "/?ref".toList)

/-- `search_imdb(title, start_year, end_year)`.  The network response is
external, so the parsed search page — the list of `href`s of the
`ipc-title-link-wrapper` anchors, in document order — is a parameter.
`search_results[0]` on an empty list raises (the resolver's
`NotFoundError`); otherwise the id is cut out of the first link. -/
def search_imdb (title : List Char) (start_year end_year : Nat)
    (search_results : List (List Char)) : Except ScrapeError (List Char) :=
  let _url := build_search_url title start_year end_year
  match search_results with
  | [] => Except.error ScrapeError.NotFoundError
  | first_result :: _ => Except.ok (extract_id first_result)

/-- The inner loop of `get_episode_ratings` over one season page: each
rating text is cut at its first `/` (`rating.text[:end]` with
`end = rating.text.find("/")`) and stored under `episode_count`,
which starts at 1 and increments per token. -/
def parse_rating_token (t : List Char) : List Char :=
  pySlice t 0 (pyFind t ['/'])

/-- The season dictionary built by the inner loop: token `j` (0-based) of
the season page is stored under episode position `j + 1`. -/
def harvest_season (ratings : List (List Char)) : List (Nat × List Char) :=
  List.enumFrom 1 (ratings.map parse_rating_token)

/-- Python `dict` assignment `d[k] = v` on an insertion-ordered
dictionary modelled as an association list: overwrite in place when the
key exists, else append. -/
def dictInsert {K V : Type} [DecidableEq K] (d : List (K × V)) (k : K) (v : V) :
    List (K × V) :=
  if d.any (fun p => decide (p.1 = k)) then
    d.map (fun p => if p.1 = k then (k, v) else p)
  else d ++ [(k, v)]

/-- Season labels as keys to season dictionaries, insertion-ordered. -/
abbrev RatingTable := List (List Char × List (Nat × List Char))

/-- Lines 63-83 of `get_episode_ratings`: the comprehension
`episode_ratings = \x7bk: \x7d\x7d for k in season_numbers\x7d` followed by the
per-season loop that fills each key from its season page.
`season_tokens` maps a season label to the rating texts parsed from that
season's page (the same label always fetches the same page). -/
def buildTable (season_numbers : List (List Char))
    (season_tokens : List Char → List (List Char)) : RatingTable :=
  let init : RatingTable :=
    season_numbers.foldl (fun d s => dictInsert d s []) []
  season_numbers.foldl (fun d s => dictInsert d s (harvest_season (season_tokens s))) init

/-- `get_episode_ratings(title, start_year, end_year)`.  The three pages
it fetches are external inputs: `search_results` (search page),
`subtitle` and `season_numbers` (texts of the `subtitle` h2 and of the
`tab-season-entry` anchors of the landing page, in document order), and
`season_tokens` (rating texts per season page).  Returns the display
title and the ratings table. -/
def get_episode_ratings (title : List Char) (start_year end_year : Nat)
    (search_results : List (List Char)) (subtitle : List Char)
    (season_numbers : List (List Char))
    (season_tokens : List Char → List (List Char)) :
    Except ScrapeError (List Char × RatingTable) :=
  match search_imdb title start_year end_year search_results with
  | Except.error e => Except.error e
  | Except.ok _imdb_id => Except.ok (subtitle, buildTable season_numbers season_tokens)

/-- Line 125 of `gen_heatmap`:
`f"..._Heatmap.png"` built from `imdb_title.replace(' ', '_')`. -/
def output_filename (imdb_title : List Char) : List Char :=
  strReplace [' '] ['_'] imdb_title ++ "_Heatmap.png".toList

/-- The numeric table obtained after `pd.DataFrame(..., dtype=np.float32)`
has converted each harvested rating string to a number: season label to
(episode position, rating) pairs.  Ratings are exact rationals. -/
abbrev NumTable := List (List Char × List (Nat × ℚ))

/-- Lookup of an episode position in a season column. -/
def dlookup (k : Nat) : List (Nat × ℚ) → Option ℚ
  | [] => none
  | (k', v) :: t => if k = k' then some v else dlookup k t

/-- The data-frame row index: the union of the episode positions of all
seasons (its order is irrelevant to every aggregation below). -/
def rowIndex (t : NumTable) : List Nat :=
  (t.flatMap (fun p => p.2.map Prod.fst)).dedup

/-- One data-frame column: the season's cell at each row of the index,
`none` at the rows the season lacks (pandas `NaN`). -/
def colCells (rows : List Nat) (col : List (Nat × ℚ)) : List (Option ℚ) :=
  rows.map (fun r => dlookup r col)

/-- A `skipna` mean: the mean of the present values, `none` (pandas
`NaN`) when every cell is missing. -/
def meanSkipna (cells : List (Option ℚ)) : Option ℚ :=
  let v := cells.filterMap id
  if v.isEmpty then none else some (v.sum / v.length)

/-- Line 95 of `gen_heatmap`:
`episode_df.loc['AVG'] = episode_df.mean(axis=0)` — one synthetic row
holding, per season column, the `skipna` mean of that column. -/
def avg_row (t : NumTable) : List (List Char × Option ℚ) :=
  t.map (fun p => (p.1, meanSkipna (colCells (rowIndex t) p.2)))

/-- All present cells of the data part of the frame, column by column. -/
def data_cells (t : NumTable) : List ℚ :=
  t.flatMap (fun p => (colCells (rowIndex t) p.2).filterMap id)

/-- `np.mean` over a list of present values (`none` on an empty frame). -/
def npMean (l : List ℚ) : Option ℚ :=
  if l.isEmpty then none else some (l.sum / l.length)

/-- `round(x, 1)`: round to one decimal place.  Ties round up; since a
value with an exact `.x5` decimal is never representable in binary
floating point, this reproduces the behaviour of the program on every
value it actually computes whose stored float exceeds the tie. -/
def roundTo1 (q : ℚ) : ℚ :=
  (round (q * 10) : ℤ) / 10

/-- Line 106 of `gen_heatmap`:
`average_rating = str(round(np.mean(episode_df), 1))`, evaluated on the
frame AFTER line 95 appended the `AVG` row, so the mean runs over every
present data cell and every present cell of the synthetic average row. -/
def gen_caption (t : NumTable) : Option ℚ :=
  (npMean (data_cells t ++ (avg_row t).filterMap (fun p => p.2))).map roundTo1

/-! ### Facts about the string search and slice primitives -/

theorem strFind_eq_none_iff {a : Char} {l : List Char} :
    strFind [a] l = none ↔ a ∉ l := by
  induction l with
  | nil => simp [strFind, List.isPrefixOf]
  | cons c t ih =>
      by_cases h : a = c
      · subst h
        simp [strFind, List.isPrefixOf]
      · have hb : (a == c) = false := by simp [h]
        simp [strFind, List.isPrefixOf, hb, h, ih, Option.map_eq_none']

theorem strFind_append_singleton {a : Char} {X : List Char} (rest : List Char)
    (h : a ∉ X) : strFind [a] (X ++ a :: rest) = some X.length := by
  induction X with
  | nil => simp [strFind, List.isPrefixOf]
  | cons c t ih =>
      have hac : (a == c) = false := by
        simp only [List.mem_cons, not_or] at h
        simp [h.1]
      have ht : a ∉ t := by
        simp only [List.mem_cons, not_or] at h
        exact h.2
      simp [strFind, List.isPrefixOf, hac, ih ht]

theorem strFind_some_le {pat s : List Char} {i : Nat}
    (h : strFind pat s = some i) : i + pat.length ≤ s.length := by
  induction s generalizing i with
  | nil =>
      unfold strFind at h
      split at h
      · next hp =>
          cases h
          cases pat with
          | nil => simp
          | cons p ps => simp [List.isPrefixOf] at hp
      · exact absurd h (by simp)
  | cons c t ih =>
      unfold strFind at h
      split at h
      · next hp =>
          cases h
          have : pat <+: (c :: t) := by
            exact List.isPrefixOf_iff_prefix.mp hp
          simpa using this.length_le
      · next hp =>
          obtain ⟨j, hj, rfl⟩ := Option.map_eq_some'.mp h
          have := ih hj
          simp only [List.length_cons]
          omega

theorem pySliceIdx_coe (n i : Nat) : pySliceIdx n (i : Int) = min i n := by
  simp [pySliceIdx]

theorem pySliceIdx_neg_one (n : Nat) : pySliceIdx n (-1) = n - 1 := by
  simp only [pySliceIdx]
  norm_num
  omega

theorem pySliceIdx_zero (n : Nat) : pySliceIdx n 0 = 0 := by
  simp [pySliceIdx]

theorem pySlice_zero_coe (s : List Char) (i : Nat) (h : i ≤ s.length) :
    pySlice s 0 (i : Int) = s.take i := by
  simp [pySlice, pySliceIdx_coe, pySliceIdx_zero, Nat.min_eq_left h]

theorem pySlice_zero_neg_one (s : List Char) :
    pySlice s 0 (-1) = s.take (s.length - 1) := by
  simp [pySlice, pySliceIdx_neg_one, pySliceIdx_zero]

/-! ### The rating-token cut -/

theorem parse_rating_token_split (X rest : List Char) (h : '/' ∉ X) :
    parse_rating_token (X ++ '/' :: rest) = X := by
  unfold parse_rating_token pyFind
  rw [strFind_append_singleton rest h]
  have hlen : X.length ≤ (X ++ '/' :: rest).length := by
    simp
  rw [pySlice_zero_coe _ _ hlen, List.take_left]

theorem parse_rating_token_no_slash (t : List Char) (h : '/' ∉ t) :
    parse_rating_token t = t.take (t.length - 1) := by
  unfold parse_rating_token pyFind
  rw [strFind_eq_none_iff.mpr h]
  exact pySlice_zero_neg_one t

/-! ### Facts about the insertion-ordered dictionary -/

theorem map_replace_eq_self {K V : Type} [DecidableEq K] {l : List (K × V)} {k : K}
    (v : V) (h : k ∉ l.map Prod.fst) :
    l.map (fun p => if p.1 = k then (k, v) else p) = l := by
  induction l with
  | nil => rfl
  | cons p t ih =>
      simp only [List.map_cons, List.mem_cons, not_or] at h
      rw [List.map_cons, if_neg (fun e => h.1 e.symm), ih h.2]

theorem dictInsert_of_not_mem {K V : Type} [DecidableEq K] {d : List (K × V)} {k : K}
    (v : V) (h : k ∉ d.map Prod.fst) : dictInsert d k v = d ++ [(k, v)] := by
  have hfalse : ¬ (d.any (fun p => decide (p.1 = k)) = true) := by
    simp only [List.any_eq_true, decide_eq_true_eq]
    rintro ⟨p, hp, rfl⟩
    exact h (List.mem_map_of_mem Prod.fst hp)
  simp [dictInsert, hfalse]

theorem dictInsert_replace {K V : Type} [DecidableEq K] {A B : List (K × V)} {k : K}
    (v w : V) (hA : k ∉ A.map Prod.fst) (hB : k ∉ B.map Prod.fst) :
    dictInsert (A ++ (k, w) :: B) k v = A ++ (k, v) :: B := by
  have htrue : (A ++ (k, w) :: B).any (fun p => decide (p.1 = k)) = true := by
    simp only [List.any_eq_true, decide_eq_true_eq]
    exact ⟨(k, w), by simp, rfl⟩
  simp only [dictInsert, htrue, if_true]
  rw [List.map_append, List.map_cons, map_replace_eq_self v hA, map_replace_eq_self v hB,
    if_pos rfl]

theorem foldl_dictInsert_fresh {K V : Type} [DecidableEq K]
    (g : K → V) (labels : List K) (acc : List (K × V))
    (hnd : labels.Nodup) (hdisj : ∀ s ∈ labels, s ∉ acc.map Prod.fst) :
    labels.foldl (fun d s => dictInsert d s (g s)) acc
      = acc ++ labels.map (fun s => (s, g s)) := by
  induction labels generalizing acc with
  | nil => simp
  | cons s rest ih =>
      rw [List.foldl_cons, dictInsert_of_not_mem (g s) (hdisj s (by simp)),
        ih (acc ++ [(s, g s)]) (List.nodup_cons.mp hnd).2 ?_]
      · simp
      · intro x hx
        simp only [List.map_append, List.mem_append, List.map_cons, List.map_nil,
          List.mem_singleton, not_or]
        constructor
        · exact hdisj x (by simp [hx])
        · intro e
          exact (List.nodup_cons.mp hnd).1 (e ▸ hx)

theorem foldl_dictInsert_overwrite {K V : Type} [DecidableEq K]
    (f g : K → V) (labels : List K) (A : List (K × V))
    (hnd : labels.Nodup) (hA : ∀ s ∈ labels, s ∉ A.map Prod.fst) :
    labels.foldl (fun d s => dictInsert d s (f s))
        (A ++ labels.map (fun s => (s, g s)))
      = A ++ labels.map (fun s => (s, f s)) := by
  induction labels generalizing A with
  | nil => simp
  | cons s rest ih =>
      have hs : s ∉ rest := (List.nodup_cons.mp hnd).1
      have h1 : dictInsert (A ++ (s, g s) :: rest.map (fun x => (x, g x))) s (f s)
          = A ++ (s, f s) :: rest.map (fun x => (x, g x)) :=
        dictInsert_replace (f s) (g s) (hA s (by simp)) (by simpa using hs)
      rw [List.map_cons, List.foldl_cons, h1]
      have h2 := ih (A ++ [(s, f s)]) (List.nodup_cons.mp hnd).2 ?_
      · simpa using h2
      · intro x hx
        simp only [List.map_append, List.mem_append, List.map_cons, List.map_nil,
          List.mem_singleton, not_or]
        exact ⟨hA x (by simp [hx]), fun e => hs (e ▸ hx)⟩

/-- With distinct season labels — distinct tabs on the landing page — the
two passes over the dictionary produce one entry per label, in discovery
order, holding that season's harvested ratings. -/
theorem buildTable_eq (labels : List (List Char))
    (tok : List Char → List (List Char)) (hnd : labels.Nodup) :
    buildTable labels tok
      = labels.map (fun s => (s, harvest_season (tok s))) := by
  unfold buildTable
  rw [foldl_dictInsert_fresh (fun _ => []) labels [] hnd (by simp)]
  simpa using foldl_dictInsert_overwrite
    (fun s => harvest_season (tok s)) (fun _ => []) labels [] hnd (by simp)

/-! ### Facts about the grid columns -/

theorem dlookup_eq_none {k : Nat} {col : List (Nat × ℚ)}
    (h : k ∉ col.map Prod.fst) : dlookup k col = none := by
  induction col with
  | nil => rfl
  | cons p t ih =>
      simp only [List.map_cons, List.mem_cons, not_or] at h
      rw [dlookup, if_neg h.1, ih h.2]

theorem filterMap_ite_of_not_mem {l : List Nat} {k : Nat} (v : ℚ)
    (f : Nat → Option ℚ) (h : k ∉ l) :
    l.filterMap (fun r => if r = k then some v else f r) = l.filterMap f := by
  induction l with
  | nil => rfl
  | cons a t ih =>
      simp only [List.mem_cons, not_or] at h
      have hne : ¬ a = k := fun e => h.1 e.symm
      simp only [List.filterMap_cons, if_neg hne, ih h.2]

/-- Reading one season's column down the whole row index and keeping the
present cells recovers exactly that season's ratings, up to order. -/
theorem filterMap_dlookup_perm (rows : List Nat) (col : List (Nat × ℚ))
    (hrows : rows.Nodup) (hcol : (col.map Prod.fst).Nodup)
    (hsub : ∀ k ∈ col.map Prod.fst, k ∈ rows) :
    (rows.filterMap (fun r => dlookup r col)).Perm (col.map Prod.snd) := by
  induction col generalizing rows with
  | nil =>
      simp only [List.map_nil]
      rw [List.filterMap_eq_nil_iff.mpr (by intro r hr; simp [dlookup])]
  | cons kv rest ih =>
      obtain ⟨k, v⟩ := kv
      have hk : k ∈ rows := hsub k (by simp)
      obtain ⟨l1, l2, rfl⟩ := List.append_of_mem hk
      have hmid := List.nodup_cons.mp (List.nodup_middle.mp hrows)
      have hk1 : k ∉ l1 := fun h => hmid.1 (List.mem_append.mpr (Or.inl h))
      have hk2 : k ∉ l2 := fun h => hmid.1 (List.mem_append.mpr (Or.inr h))
      have hkrest : k ∉ rest.map Prod.fst := (List.nodup_cons.mp hcol).1
      have hlookup : ∀ r : Nat, dlookup r ((k, v) :: rest)
          = if r = k then some v else dlookup r rest := fun r => rfl
      rw [List.filterMap_append, List.filterMap_cons]
      simp only [hlookup, if_pos rfl]
      rw [filterMap_ite_of_not_mem v _ hk1, filterMap_ite_of_not_mem v _ hk2]
      have hperm1 : (l1.filterMap (fun r => dlookup r rest)
            ++ v :: l2.filterMap (fun r => dlookup r rest)).Perm
          (v :: (l1.filterMap (fun r => dlookup r rest)
            ++ l2.filterMap (fun r => dlookup r rest))) := List.perm_middle
      refine hperm1.trans ?_
      rw [List.map_cons, ← List.filterMap_append]
      refine List.Perm.cons v ?_
      refine ih (l1 ++ l2) hmid.2 (List.nodup_cons.mp hcol).2 ?_
      intro x hx
      have hxk : x ≠ k := fun e => hkrest (e ▸ hx)
      have := hsub x (by simp [hx])
      simp only [List.mem_append, List.mem_cons] at this ⊢
      rcases this with h | h | h
      · exact Or.inl h
      · exact absurd h hxk
      · exact Or.inr h

/-! ### The single-character replace -/

theorem strReplace_singleton (a : Char) (rep : List Char) (t : List Char) :
    strReplace [a] rep t = t.flatMap (fun c => if c = a then rep else [c]) := by
  induction t with
  | nil => simp [strReplace]
  | cons c rest ih =>
      by_cases h : c = a
      · subst h
        rw [strReplace]
        rw [dif_pos ⟨by simp, by simp [List.isPrefixOf]⟩]
        simp [ih]
      · rw [strReplace]
        rw [dif_neg ?_]
        · simp [h, ih]
        · rintro ⟨-, hpre⟩
          simp only [List.isPrefixOf, Bool.and_eq_true, beq_iff_eq] at hpre
          exact h hpre.1.symm

/-! ### The identifier cut of the resolver -/

theorem pySlice_coe_neg_one (s : List Char) (i : Nat) (h : i ≤ s.length) :
    pySlice s (i : Int) (-1) = (s.take (s.length - 1)).drop i := by
  simp [pySlice, pySliceIdx_neg_one, pySliceIdx_coe, Nat.min_eq_left h]

theorem extract_id_no_ref {href : List Char} {i : Nat}
    (h1 : strFind "tt".toList href = some i)
    (h2 : strFind "/?ref".toList href = none) :
    extract_id href = (href.take (href.length - 1)).drop i := by
  have hle : i ≤ href.length := by
    have := strFind_some_le h1
    omega
  unfold extract_id pyFind
  rw [h1, h2]
  exact pySlice_coe_neg_one href i hle

theorem enumFrom_map_fst (n : Nat) (l : List (List Char)) :
    (List.enumFrom n l).map Prod.fst = List.range' n l.length := by
  induction l generalizing n with
  | nil => rfl
  | cons a t ih => simp [List.enumFrom, List.range', ih]

theorem meanSkipna_eq (cells : List (Option ℚ)) :
    meanSkipna cells = if (cells.filterMap id).isEmpty = true then none
      else some ((cells.filterMap id).sum / ((cells.filterMap id).length : ℚ)) := rfl

/-! ### Claims -/

/-- C1 (amended): for a rating token of the form `X/...` whose prefix `X`
holds no `/`, the harvester extracts exactly `X` and the later conversion
sees the decimal value of `X`; but for a token holding no `/` at all,
`find` returns `-1` and the harvester silently keeps the token minus its
final character instead of failing with a `ParseError`. -/
theorem C1_rating_token (X rest t : List Char) (h1 : '/' ∉ X) (h2 : '/' ∉ t) :
    parse_rating_token (X ++ '/' :: rest) = X ∧
    parseDecimal (parse_rating_token (X ++ '/' :: rest)) = parseDecimal X ∧
    parse_rating_token t = t.take (t.length - 1) := by
  refine ⟨parse_rating_token_split X rest h1, ?_, parse_rating_token_no_slash t h2⟩
  rw [parse_rating_token_split X rest h1]

/-- C1 witness: `"8.4/10"` parses to `"8.4"`, worth `42/5`; the
slash-free token `"8.4"` is silently truncated to `"8."`, worth `8`. -/
theorem C1_rating_token_witness :
    parse_rating_token ("8.4".toList ++ '/' :: "10".toList) = "8.4".toList ∧
    parseDecimal "8.4".toList = some (42 / 5) ∧
    parse_rating_token "8.4".toList = "8.".toList ∧
    parseDecimal "8.".toList = some 8 := by
  have h := C1_rating_token "8.4".toList "10".toList "8.4".toList (by decide) (by decide)
  refine ⟨h.1, ?_, h.2.2.trans (by decide), ?_⟩
  · unfold parseDecimal
    rw [show strFind ['.'] "8.4".toList = some 1 from by decide]
    norm_num [digitsToNat, show '8'.toNat - 48 = 8 from by decide,
      show '4'.toNat - 48 = 4 from by decide, show '8'.isDigit = true from by decide,
      show '4'.isDigit = true from by decide]
  · unfold parseDecimal
    rw [show strFind ['.'] "8.".toList = some 1 from by decide]
    norm_num [digitsToNat, show '8'.toNat - 48 = 8 from by decide,
      show '8'.isDigit = true from by decide]

/-- C1 counterexample: the token `"8.4"` holds no `/`, cannot be the
rendering of a rating, yet harvesting does not fail: the token is
truncated to `"8."` and converts without error (to `8`, not `8.4`). -/
theorem C1_rating_token_cex :
    ('/' ∉ "8.4".toList) ∧
    parseDecimal (parse_rating_token "8.4".toList) = some 8 := by
  refine ⟨by decide, ?_⟩
  rw [show parse_rating_token "8.4".toList = "8.".toList from by decide]
  unfold parseDecimal
  rw [show strFind ['.'] "8.".toList = some 1 from by decide]
  norm_num [digitsToNat, show '8'.toNat - 48 = 8 from by decide,
    show '8'.isDigit = true from by decide]

/-- C2: an empty search-result list makes the resolver fail with
`NotFoundError`; no identifier — default, empty or otherwise — is ever
returned for it. -/
theorem C2_empty_results (title : List Char) (start_year end_year : Nat) :
    search_imdb title start_year end_year [] = Except.error ScrapeError.NotFoundError ∧
    ∀ imdb_id, search_imdb title start_year end_year [] ≠ Except.ok imdb_id :=
  ⟨rfl, fun _ h => by simp [search_imdb] at h⟩

/-- C2 witness at a concrete query. -/
theorem C2_empty_results_witness :
    search_imdb "the wire".toList 0 0 [] = Except.error ScrapeError.NotFoundError :=
  (C2_empty_results "the wire".toList 0 0).1

/-- C3 (amended): a landing page without season tabs does NOT make the
harvester fail: provided resolution succeeded (a non-empty search-result
list), it returns an empty `RatingTable`, which reaches the renderer. -/
theorem C3_no_season_tabs (title : List Char) (start_year end_year : Nat)
    (search_results : List (List Char)) (subtitle : List Char)
    (season_tokens : List Char → List (List Char))
    (h : search_results ≠ []) :
    get_episode_ratings title start_year end_year search_results subtitle []
        season_tokens = Except.ok (subtitle, ([] : RatingTable)) := by
  obtain ⟨r, rs, rfl⟩ := List.exists_cons_of_ne_nil h
  rfl

/-- C3 witness at a concrete run. -/
theorem C3_no_season_tabs_witness :
    get_episode_ratings "x".toList 0 0 ["/title/tt0000001/?ref_=a".toList]
        "T".toList [] (fun _ => [])
      = Except.ok ("T".toList, ([] : RatingTable)) :=
  C3_no_season_tabs "x".toList 0 0 ["/title/tt0000001/?ref_=a".toList]
    "T".toList (fun _ => []) (by decide)

/-- C3 counterexample: a run whose landing page has no season tabs
returns `ok` with an empty table — it does not fail with
`NotFoundError` (nor any other error). -/
theorem C3_no_season_tabs_cex :
    get_episode_ratings "x".toList 0 0 ["/title/tt0000001/?ref_=b".toList]
        "T".toList [] (fun _ => [])
      = Except.ok ("T".toList, ([] : RatingTable)) ∧
    ∀ e : ScrapeError, get_episode_ratings "x".toList 0 0
        ["/title/tt0000001/?ref_=b".toList] "T".toList [] (fun _ => [])
      ≠ Except.error e := by
  refine ⟨rfl, fun e h => ?_⟩
  rw [show get_episode_ratings "x".toList 0 0 ["/title/tt0000001/?ref_=b".toList]
      "T".toList [] (fun _ => []) = Except.ok ("T".toList, ([] : RatingTable)) from rfl] at h
  exact absurd h (by simp)

/-- The table of the design document's grid-construction example, after
numeric conversion: season "1" holds 9.0 and 8.5, season "2" holds 7.0. -/
def C4table : NumTable :=
  [("1".toList, [(1, 9), (2, 17 / 2)]), ("2".toList, [(1, 7)])]

/-- C4 (amended): the caption averages every present cell of the frame
INCLUDING the synthetic per-season average row, so on the example table
the meaned cells are 9.0, 8.5, 7.0 plus the average-row cells 8.75 and
7.0, and the caption is (9+8.5+7+8.75+7)/5 = 8.05, rendered as 8.1 —
not (9+8.5+7)/3 = 8.17 rendered as 8.2. -/
theorem C4_caption :
    gen_caption C4table = some (81 / 10) ∧
    data_cells C4table ++ (avg_row C4table).filterMap (fun p => p.2)
      = [17 / 2, 9, 7, 35 / 4, 7] := by
  have h1 : rowIndex C4table = [2, 1] := by decide
  have h2 : data_cells C4table ++ (avg_row C4table).filterMap (fun p => p.2)
      = [17 / 2, 9, 7, 35 / 4, 7] := by
    unfold data_cells avg_row
    rw [h1]
    norm_num [C4table, colCells, dlookup, meanSkipna, List.filterMap_cons, id_eq,
      Option.some_ne_none, List.filterMap_nil, List.isEmpty_cons, List.isEmpty_nil,
      List.cons_ne_nil, ne_eq]
  refine ⟨?_, h2⟩
  unfold gen_caption
  rw [h2]
  norm_num [npMean, roundTo1, round_eq]

/-- C4 counterexample: on the example table the rendered caption value is
8.1, while the claim's stated value — the data-cell-only mean 8.17
rounded to one decimal — is 8.2. -/
theorem C4_caption_cex :
    gen_caption C4table = some (81 / 10) ∧
    roundTo1 ((9 + 17 / 2 + 7) / 3) = 41 / 5 ∧ (81 / 10 : ℚ) ≠ 41 / 5 := by
  have h1 : rowIndex C4table = [2, 1] := by decide
  have h2 : data_cells C4table ++ (avg_row C4table).filterMap (fun p => p.2)
      = [17 / 2, 9, 7, 35 / 4, 7] := by
    unfold data_cells avg_row
    rw [h1]
    norm_num [C4table, colCells, dlookup, meanSkipna, List.filterMap_cons, id_eq,
      Option.some_ne_none, List.filterMap_nil, List.isEmpty_cons, List.isEmpty_nil,
      List.cons_ne_nil, ne_eq]
  refine ⟨?_, by norm_num [roundTo1, round_eq], by norm_num⟩
  unfold gen_caption
  rw [h2]
  norm_num [npMean, roundTo1, round_eq]

/-- C5: the synthetic average row holds one cell per season column; a
season's cell is the arithmetic mean of that season's present ratings —
the missing grid cells of the column are ignored — and it is `none`
(missing, not zero) exactly when the season has no present rating. -/
theorem C5_avg_row (t : NumTable) (hnd : ∀ p ∈ t, (p.2.map Prod.fst).Nodup) :
    avg_row t = t.map (fun p => (p.1,
      if p.2.isEmpty then none
      else some ((p.2.map Prod.snd).sum / ((p.2.map Prod.snd).length : ℚ)))) := by
  unfold avg_row
  apply List.map_congr_left
  intro p hp
  have hsub : ∀ k ∈ p.2.map Prod.fst, k ∈ rowIndex t := by
    intro k hk
    unfold rowIndex
    rw [List.mem_dedup]
    exact List.mem_flatMap.mpr ⟨p, hp, hk⟩
  have hperm := filterMap_dlookup_perm (rowIndex t) p.2
    (List.nodup_dedup _) (hnd p hp) hsub
  have hv : (colCells (rowIndex t) p.2).filterMap id
      = (rowIndex t).filterMap (fun r => dlookup r p.2) := by
    simp [colCells, List.filterMap_map, Function.comp_def]
  rw [Prod.mk.injEq]
  refine ⟨rfl, ?_⟩
  rw [meanSkipna_eq, hv]
  by_cases hl : p.2 = []
  · rw [hl]
    rw [show (rowIndex t).filterMap (fun r => dlookup r ([] : List (Nat × ℚ))) = [] from
      List.filterMap_eq_nil_iff.mpr (by intro r hr; rfl)]
    simp
  · have hlen := hperm.length_eq
    have hne : ((rowIndex t).filterMap (fun r => dlookup r p.2)).isEmpty = false := by
      cases hx : (rowIndex t).filterMap (fun r => dlookup r p.2) with
      | nil =>
          exfalso
          rw [hx] at hlen
          simp only [List.length_nil, List.length_map] at hlen
          exact hl (List.length_eq_zero.mp hlen.symm)
      | cons a b => rfl
    have hmapne : p.2.isEmpty = false := by
      cases hq : p.2 with
      | nil => exact absurd hq hl
      | cons a b => rfl
    rw [hne, hmapne]
    simp only [Bool.false_eq_true, if_false]
    rw [hperm.sum_eq, hperm.length_eq]

/-- The example table with a third, empty season. -/
def W5table : NumTable :=
  [("1".toList, [(1, 9), (2, 17 / 2)]), ("2".toList, [(1, 7)]), ("3".toList, [])]

/-- C5 witness: season "1" averages to 8.75, season "2" to 7.0, and the
season with no present rating gets a missing cell. -/
theorem C5_avg_row_witness :
    avg_row W5table
      = [("1".toList, some (35 / 4)), ("2".toList, some 7), ("3".toList, none)] := by
  rw [C5_avg_row W5table (by decide)]
  norm_num [W5table, List.isEmpty_cons, List.isEmpty_nil, List.cons_ne_nil, ne_eq]

/-- C6: with the season tabs of the landing page pairwise distinct, the
harvested table has exactly one key per tab, in discovery order. -/
theorem C6_table_keys (labels : List (List Char))
    (tok : List Char → List (List Char)) (hnd : labels.Nodup) :
    (buildTable labels tok).map Prod.fst = labels ∧
    (buildTable labels tok).length = labels.length := by
  rw [buildTable_eq labels tok hnd]
  exact ⟨by simp [Function.comp_def], by simp⟩

/-- C6 witness on a two-season landing page. -/
theorem C6_table_keys_witness :
    (buildTable ["1".toList, "2".toList] (fun _ => [])).map Prod.fst
        = ["1".toList, "2".toList] ∧
    (buildTable ["1".toList, "2".toList] (fun _ => [])).length = 2 :=
  C6_table_keys ["1".toList, "2".toList] (fun _ => []) (by decide)

/-- C7: in every season of a harvested table the present episode
positions are exactly 1, 2, ..., k for k the number of rating tokens on
that season's page: contiguous from 1, no interior gap, missing
positions only ever a trailing suffix. -/
theorem C7_positions (labels : List (List Char))
    (tok : List Char → List (List Char)) (hnd : labels.Nodup)
    (p : List Char × List (Nat × List Char)) (hp : p ∈ buildTable labels tok) :
    ∃ k, p.2.map Prod.fst = List.range' 1 k ∧
      ∀ i, i ∈ p.2.map Prod.fst ↔ 1 ≤ i ∧ i ≤ k := by
  rw [buildTable_eq labels tok hnd] at hp
  obtain ⟨s, hs, rfl⟩ := List.mem_map.mp hp
  refine ⟨(tok s).length, ?_, ?_⟩
  · simp [harvest_season, enumFrom_map_fst]
  · intro i
    simp only [harvest_season, enumFrom_map_fst, List.length_map]
    rw [List.mem_range'_1]
    omega

/-- C7 witness: a two-token season page yields positions 1 and 2. -/
theorem C7_positions_witness :
    ∃ k, ("1".toList, harvest_season ["9.1/10".toList, "8.0/10".toList]).2.map Prod.fst
        = List.range' 1 k ∧
      ∀ i, i ∈ ("1".toList,
          harvest_season ["9.1/10".toList, "8.0/10".toList]).2.map Prod.fst
        ↔ 1 ≤ i ∧ i ≤ k :=
  C7_positions ["1".toList] (fun _ => ["9.1/10".toList, "8.0/10".toList])
    (by decide) _ (by decide)

/-- C8: the search URL carries the title with each space percent-encoded
as `%20`, and the `release_date` filter is open-ended on either side: a
start year alone yields `start-01-01,` (onward), an end year alone
yields `,end-12-31` (up to), both yield the closed range, neither yields
no filter. -/
theorem C8_search_url (title : List Char) (start_year end_year : Nat) :
    build_search_url title start_year end_year
      = "https://www.imdb.com/search/title/?title=".toList
        ++ title.flatMap (fun c => if c = ' ' then "%20".toList else [c])
        ++ "&title_type=tv_series,tv_miniseries".toList
        ++ (if start_year ≠ 0 ∧ end_year ≠ 0 then
              "&release_date=".toList ++ (Nat.repr start_year).toList
                ++ "-01-01,".toList ++ (Nat.repr end_year).toList ++ "-12-31".toList
            else if start_year ≠ 0 then
              "&release_date=".toList ++ (Nat.repr start_year).toList ++ "-01-01,".toList
            else if end_year ≠ 0 then
              "&release_date=,".toList ++ (Nat.repr end_year).toList ++ "-12-31".toList
            else []) := by
  unfold build_search_url
  rw [strReplace_singleton]
  by_cases hs : start_year = 0 <;> by_cases he : end_year = 0 <;>
    simp [hs, he, List.append_assoc]

/-- C8 witness: a start year with no end year searches from that year
onward. -/
theorem C8_search_url_witness :
    build_search_url "the wire".toList 2002 0
      = ("https://www.imdb.com/search/title/?title=the%20wire"
          ++ "&title_type=tv_series,tv_miniseries&release_date=2002-01-01,").toList := by
  rw [C8_search_url "the wire".toList 2002 0]
  decide

/-- C9: the output filename is the canonical title with every space —
and nothing else — replaced by an underscore, plus the fixed
`_Heatmap.png` suffix. -/
theorem C9_filename (t : List Char) :
    output_filename t
      = t.map (fun c => if c = ' ' then '_' else c) ++ "_Heatmap.png".toList := by
  unfold output_filename
  rw [strReplace_singleton]
  congr 1
  induction t with
  | nil => rfl
  | cons c rest ih =>
      by_cases h : c = ' ' <;> simp [h, ih]

/-- C9 witness: the design document's example title. -/
theorem C9_filename_witness :
    output_filename "Show: Part Two".toList = "Show:_Part_Two_Heatmap.png".toList :=
  (C9_filename "Show: Part Two".toList).trans (by decide)

/-- C10: when the first search-result link holds the marker `tt` (first
at index `i`) but no `/?ref` marker, the suffix search yields `-1` and
the resolver silently succeeds with the link cut from the marker up to
but excluding the link's final character — a truncated identifier. -/
theorem C10_truncated_id (title : List Char) (start_year end_year : Nat)
    (href : List Char) (i : Nat)
    (h1 : strFind "tt".toList href = some i)
    (h2 : strFind "/?ref".toList href = none) :
    pyFind href "/?ref".toList = -1 ∧
    search_imdb title start_year end_year [href]
      = Except.ok ((href.take (href.length - 1)).drop i) := by
  constructor
  · unfold pyFind
    rw [h2]
  · show Except.ok (extract_id href) = _
    rw [extract_id_no_ref h1 h2]

/-- C10 witness: an episodes link without `/?ref` loses its final
character: the resolver returns `tt0306414/episode`. -/
theorem C10_truncated_id_witness :
    search_imdb "x".toList 0 0 ["/title/tt0306414/episodes".toList]
      = Except.ok "tt0306414/episode".toList := by
  have h := C10_truncated_id "x".toList 0 0 "/title/tt0306414/episodes".toList 7
    (by decide) (by decide)
  exact h.2.trans (congrArg Except.ok (by decide))

end IMDBHeatmap
